import Mathlib

/-!
Verification development for the `ha-energy-scheduler` integration.

The Lean definitions below are a shallow embedding of the Python sources:

* `custom_components/hacs_energy_scheduler/coordinator.py`
  (the per-minute schedule executor `_async_check_schedule` and the
  `async_run_optimization` clamp),
* `custom_components/hacs_energy_scheduler/optimizer.py`
  (`EnergyOptimizer.optimize` and its helper methods),
* `custom_components/hacs_energy_scheduler/pv_forecast.py`
  (`PVForecastParser.get_hourly_forecast` and its parse strategies),
* `custom_components/hacs_energy_scheduler/storage_manager.py`
  (`async_clear_date_schedule`, `async_cleanup_old_dates`).

Python floats are modelled as exact rationals (`ℚ`), Python `dict`s as
association lists with unique keys, optional/absent dict keys as `Option`
fields, and wall-clock datetimes as rational numbers of hours since an
arbitrary epoch (so `.hour` is `⌊t⌋ % 24` and the date is `⌊t / 24⌋`).
-/

namespace EnergyScheduler

/-! ### Association-list model of Python dictionaries -/

/-- Lookup in an association list, mirroring `dict.get(k)`. -/
def alistGet {β : Type} (l : List (String × β)) (k : String) : Option β :=
  match l with
  | [] => none
  | kv :: rest => if kv.1 = k then some kv.2 else alistGet rest k

/-- Update/insert, mirroring `d[k] = v` on a dict with unique keys. -/
def alistInsert {β : Type} (l : List (String × β)) (k : String) (v : β) :
    List (String × β) :=
  if l.any (fun kv => kv.1 == k) then
    l.map (fun kv => if kv.1 = k then (k, v) else kv)
  else
    l ++ [(k, v)]

/-- Deletion, mirroring `d.pop(k, None)` / `del d[k]`. -/
def alistErase {β : Type} (l : List (String × β)) (k : String) :
    List (String × β) :=
  l.filter (fun kv => kv.1 != k)

theorem alistGet_filter_eq_self {β : Type} (l : List (String × β)) (k : String) :
    alistGet (l.filter (fun kv => kv.1 == k)) k = alistGet l k := by
  induction l with
  | nil => rfl
  | cons kv rest ih =>
      by_cases h : kv.1 = k
      · simp [List.filter_cons, alistGet, h]
      · simp [List.filter_cons, alistGet, h, ih]

theorem alistGet_filter_ne {β : Type} (l : List (String × β)) (k k' : String)
    (h : k' ≠ k) : alistGet (l.filter (fun kv => kv.1 == k)) k' = none := by
  induction l with
  | nil => rfl
  | cons kv rest ih =>
      by_cases hk : kv.1 = k
      · simp only [List.filter_cons, hk, beq_self_eq_true, if_true, alistGet]
        rw [if_neg (by simpa [hk] using fun e => h e.symm)]
        exact ih
      · simp [List.filter_cons, hk, ih]

theorem alistGet_map_update {β : Type} (l : List (String × β)) (k : String) (v : β)
    (h : l.any (fun kv => kv.1 == k) = true) :
    alistGet (l.map (fun kv => if kv.1 = k then (k, v) else kv)) k = some v := by
  induction l with
  | nil => simp at h
  | cons kv rest ih =>
      by_cases hk : kv.1 = k
      · simp [alistGet, hk]
      · simp only [List.any_cons, Bool.or_eq_true, beq_iff_eq, hk, false_or] at h
        simp [alistGet, hk, ih h]

theorem alistGet_append_single {β : Type} (l : List (String × β)) (k : String) (v : β)
    (h : l.any (fun kv => kv.1 == k) = false) :
    alistGet (l ++ [(k, v)]) k = some v := by
  induction l with
  | nil => simp [alistGet]
  | cons kv rest ih =>
      simp only [List.any_cons, Bool.or_eq_false_iff, beq_eq_false_iff_ne] at h
      simp only [List.cons_append, alistGet]
      rw [if_neg h.1]
      exact ih (by simp [h.2])

theorem alistGet_insert_self {β : Type} (l : List (String × β)) (k : String) (v : β) :
    alistGet (alistInsert l k v) k = some v := by
  unfold alistInsert
  by_cases h : l.any (fun kv => kv.1 == k)
  · simp only [h, if_true]
    exact alistGet_map_update l k v h
  · simp only [h, if_false]
    exact alistGet_append_single l k v (Bool.eq_false_iff.mpr h)

theorem alistGet_map_update_ne {β : Type} (l : List (String × β)) (k k' : String)
    (v : β) (h : k' ≠ k) :
    alistGet (l.map (fun kv => if kv.1 = k then (k, v) else kv)) k' = alistGet l k' := by
  induction l with
  | nil => rfl
  | cons kv rest ih =>
      by_cases hk : kv.1 = k
      · simp [alistGet, hk, Ne.symm h, ih]
      · simp [alistGet, hk, ih]

theorem alistGet_append_single_ne {β : Type} (l : List (String × β)) (k k' : String)
    (v : β) (h : k' ≠ k) : alistGet (l ++ [(k, v)]) k' = alistGet l k' := by
  induction l with
  | nil => simp [alistGet, Ne.symm h]
  | cons kv rest ih =>
      simp only [List.cons_append, alistGet]
      exact if_congr Iff.rfl rfl ih

theorem alistGet_insert_ne {β : Type} (l : List (String × β)) (k k' : String)
    (v : β) (h : k' ≠ k) : alistGet (alistInsert l k v) k' = alistGet l k' := by
  unfold alistInsert
  by_cases hany : l.any (fun kv => kv.1 == k)
  · simp only [hany, if_true]
    exact alistGet_map_update_ne l k k' v h
  · simp only [hany, if_false]
    exact alistGet_append_single_ne l k k' v h

theorem alistGet_erase_ne {β : Type} (l : List (String × β)) (k k' : String)
    (h : k' ≠ k) : alistGet (alistErase l k) k' = alistGet l k' := by
  unfold alistErase
  induction l with
  | nil => rfl
  | cons kv rest ih =>
      by_cases hk : kv.1 = k
      · simp [List.filter_cons, alistGet, hk, Ne.symm h, ih]
      · simp [List.filter_cons, alistGet, hk, ih]

theorem alistGet_erase_self {β : Type} (l : List (String × β)) (k : String) :
    alistGet (alistErase l k) k = none := by
  unfold alistErase
  induction l with
  | nil => rfl
  | cons kv rest ih =>
      by_cases h : kv.1 = k
      · simp [List.filter_cons, h, ih]
      · simp [List.filter_cons, h, alistGet, ih]

/-! ### Schedule entries

A stored schedule entry is a JSON-ish dict; `async_set_hour_schedule`
normalizes away `None`/`False` values (except `action`), so each field is
modelled as an `Option` (`none` = key absent) and readers use
`Option.getD`, mirroring Python's `entry.get(key, default)`. -/

structure ScheduleEntry where
  action : Option String
  soc_limit : Option Int
  soc_limit_type : Option String
  full_hour : Option Bool
  minutes : Option Int
  ev_charging : Option Bool
  manual : Option Bool
deriving Repr, DecidableEq

/-! ### The executor tick (`EnergySchedulerCoordinator._async_check_schedule`) -/

/-- External inputs read by one tick of `_async_check_schedule`. -/
structure TickInput where
  /-- `local_now.strftime("%Y-%m-%d")` -/
  currentDate : String
  /-- `local_now.hour` -/
  currentHour : Nat
  /-- `local_now.minute` -/
  currentMinute : Nat
  /-- state of the inverter mode entity (`none` = entity missing) -/
  actualMode : Option String
  /-- `self._storage.get_hour_schedule(current_date, current_hour)` -/
  entry : Option ScheduleEntry
  /-- truthiness of `self.soc_sensor` -/
  socSensorConfigured : Bool
  /-- `self._get_current_soc()` -/
  currentSoc : Option Int
  /-- `self._is_ev_stop_condition_configured()` -/
  stopConfigured : Bool
  /-- result of `self._async_check_ev_stop_condition()` (errors yield `false`) -/
  stopMet : Bool
  /-- `self.default_mode` -/
  defaultMode : String
deriving Repr

/-- The side-effecting call issued by a tick: `applyMode m` stands for
`select_option` with option `m`; `noop` means no service call. -/
inductive TickDecision where
  | applyMode (mode : String)
  | noop
deriving Repr, DecidableEq

/-- Observable outcome of one tick: the service call, the direction-lock
dict afterwards, the synced `_current_action`, the final
`should_apply` / `should_revert` flags, and the `soc_limit_type`
value finally used by the limit comparison (instrumented). -/
structure TickResult where
  decision : TickDecision
  locks : List (String × String)
  syncedAction : Option String
  shouldApply : Bool
  shouldRevert : Bool
  resolvedSocType : Option String
deriving Repr

/-- Direction resolution for an `auto`/unset `soc_limit_type`
(coordinator.py lines 327–361): use the locked direction when present,
otherwise detect with a ±2 hysteresis band and record the lock; inside the
band, veto, mark revert-if-active, and still record the `"max"` fallback. -/
def resolveSocType (locks0 : List (String × String)) (currentKey : String)
    (action0 : Option String) (action : String) (sa sr : Bool)
    (soc L : Int) (slt0 : Option String) :
    Bool × Bool × List (String × String) × Option String :=
  if slt0 = none ∨ slt0 = some "auto" then
    match alistGet locks0 currentKey with
    | some t => (sa, sr, locks0, some t)
    | none =>
        if soc < L - 2 then
          (sa, sr, alistInsert locks0 currentKey "max", some "max")
        else if soc > L + 2 then
          (sa, sr, alistInsert locks0 currentKey "min", some "min")
        else
          (false, action0 == some action, alistInsert locks0 currentKey "max",
            some "max")
  else (sa, sr, locks0, slt0)

/-- SOC-limit check (coordinator.py lines 319–390): resolve the direction,
then trigger on `min`/`max` threshold crossing and clear the lock when the
limit is reached. -/
def socLimitCheck (locks0 : List (String × String)) (currentKey : String)
    (action0 : Option String) (action : String) (sa sr : Bool)
    (soc L : Int) (slt0 : Option String) :
    Bool × Bool × List (String × String) × Option String :=
  match resolveSocType locks0 currentKey action0 action sa sr soc L slt0 with
  | (sa1, sr1, locks1, slt) =>
      if (slt = some "min" ∧ soc ≤ L) ∨ (slt = some "max" ∧ L ≤ soc) then
        (false, action0 == some action, alistErase locks1 currentKey, slt)
      else (sa1, sr1, locks1, slt)

/-- Minutes-limit check (coordinator.py lines 392–401): vetoes when
`current_minute > minutes` (strict), only when `minutes` is set and
`full_hour` is false. -/
def minutesCheck (mins : Option Int) (full_hour : Bool) (cm : Nat)
    (action0 : Option String) (action : String) (sa sr : Bool) : Bool × Bool :=
  match mins, full_hour with
  | some M, false =>
      if M < (cm : Int) then (false, action0 == some action) else (sa, sr)
  | _, _ => (sa, sr)

theorem minutesCheck_of_vetoed (mins : Option Int) (full_hour : Bool) (cm : Nat)
    (action0 : Option String) (action : String) :
    minutesCheck mins full_hour cm action0 action false (action0 == some action) =
      (false, action0 == some action) := by
  unfold minutesCheck
  rcases mins with _ | M
  · rfl
  · rcases full_hour
    · dsimp only
      split <;> rfl
    · rfl

/-- One tick of `_async_check_schedule`, as a function of the lock dict,
the remembered `_current_action`, and the external reads. -/
def tick (locks : List (String × String)) (currentAction : Option String)
    (inp : TickInput) : TickResult :=
  let currentKey := inp.currentDate ++ "_" ++ toString inp.currentHour
  -- stale-lock purge (lines 275–280)
  let locks0 := locks.filter (fun kv => kv.1 == currentKey)
  -- external-change absorption (lines 282–289)
  let action0 : Option String :=
    match inp.actualMode with
    | some m => if m ≠ "" ∧ currentAction ≠ some m then some m else currentAction
    | none => currentAction
  match inp.entry with
  | none =>
      -- no schedule for this hour (lines 409–412)
      let dec : TickDecision :=
        match action0 with
        | some a =>
            if a ≠ "" ∧ a ≠ inp.defaultMode ∧ inp.defaultMode ≠ "" then
              .applyMode inp.defaultMode
            else .noop
        | none => .noop
      ⟨dec, locks0, action0, true, false, none⟩
  | some e =>
      let action := e.action.getD ""
      if action = "" then ⟨.noop, locks0, action0, true, false, none⟩
      else
        let ev_charging := e.ev_charging.getD false
        let full_hour := e.full_hour.getD false
        -- EV stop-condition check (lines 307–317)
        let s1 : Bool × Bool :=
          if ev_charging ∧ inp.stopConfigured ∧ inp.stopMet then
            (false, action0 == some action)
          else (true, false)
        -- SOC-limit check (lines 319–390)
        let s2 : Bool × Bool × List (String × String) × Option String :=
          match e.soc_limit, inp.socSensorConfigured, ev_charging with
          | some L, true, false =>
              match inp.currentSoc with
              | some soc =>
                  socLimitCheck locks0 currentKey action0 action s1.1 s1.2
                    soc L e.soc_limit_type
              | none => (s1.1, s1.2, locks0, none)
          | _, _, _ => (s1.1, s1.2, locks0, none)
        -- minutes-limit check (lines 392–401)
        let s3 : Bool × Bool :=
          minutesCheck e.minutes full_hour inp.currentMinute action0 action
            s2.1 s2.2.1
        -- apply / revert (lines 403–407)
        let dec : TickDecision :=
          if s3.1 then
            (if action0 ≠ some action then .applyMode action else .noop)
          else if s3.2 ∧ action0 ≠ some inp.defaultMode ∧ inp.defaultMode ≠ "" then
            .applyMode inp.defaultMode
          else .noop
        ⟨dec, s2.2.2.1, action0, s3.1, s3.2, s2.2.2.2⟩

theorem resolveSocType_first_band (locks0 : List (String × String)) (ck : String)
    (a0 : Option String) (act : String) (sa sr : Bool) (soc L : Int)
    (slt0 : Option String) (hslt : slt0 = none ∨ slt0 = some "auto")
    (hlock : alistGet locks0 ck = none)
    (h1 : L - 2 ≤ soc) (h2 : soc ≤ L + 2) :
    resolveSocType locks0 ck a0 act sa sr soc L slt0 =
      (false, a0 == some act, alistInsert locks0 ck "max", some "max") := by
  unfold resolveSocType
  rw [if_pos hslt, hlock]
  rw [if_neg (by omega), if_neg (by omega)]

theorem socLimitCheck_first_band (locks0 : List (String × String)) (ck : String)
    (a0 : Option String) (act : String) (sa sr : Bool) (soc L : Int)
    (slt0 : Option String) (hslt : slt0 = none ∨ slt0 = some "auto")
    (hlock : alistGet locks0 ck = none)
    (h1 : L - 2 ≤ soc) (h2 : soc ≤ L + 2) :
    socLimitCheck locks0 ck a0 act sa sr soc L slt0 =
      if L ≤ soc then
        (false, a0 == some act, alistErase (alistInsert locks0 ck "max") ck,
          some "max")
      else
        (false, a0 == some act, alistInsert locks0 ck "max", some "max") := by
  unfold socLimitCheck
  rw [resolveSocType_first_band locks0 ck a0 act sa sr soc L slt0 hslt hlock h1 h2]
  dsimp only
  by_cases hL : L ≤ soc
  · rw [if_pos hL, if_pos (Or.inr ⟨rfl, hL⟩)]
  · rw [if_neg hL, if_neg ?_]
    rintro (⟨hmin, _⟩ | ⟨_, hle⟩)
    · exact absurd (Option.some_injective _ hmin) (by decide)
    · exact hL hle

/-- Claim C1, counterexample: with SOC = 48, `soc_limit = 50`,
`soc_limit_type = auto`, no prior lock, the first tick vetoes and reverts,
yet the direction lock for the current (date, hour) is RETAINED as `"max"`
(not cleared, contradicting the claim that an in-band first detection
clears the lock). -/
theorem c1_lock_retained_counterexample :
    (tick [] (some "chg")
        ⟨"2026-10-12", 10, 0, some "chg",
          some ⟨some "chg", some 50, some "auto", none, none, none, none⟩,
          true, some 48, false, false, "idle"⟩).shouldApply = false ∧
    (tick [] (some "chg")
        ⟨"2026-10-12", 10, 0, some "chg",
          some ⟨some "chg", some 50, some "auto", none, none, none, none⟩,
          true, some 48, false, false, "idle"⟩).decision =
      .applyMode "idle" ∧
    alistGet
      (tick [] (some "chg")
        ⟨"2026-10-12", 10, 0, some "chg",
          some ⟨some "chg", some 50, some "auto", none, none, none, none⟩,
          true, some 48, false, false, "idle"⟩).locks "2026-10-12_10"
      = some "max" := by
  refine ⟨rfl, rfl, rfl⟩

/-- Claim C1, amended: for an entry with `soc_limit` set, `ev_charging`
false, `soc_limit_type` auto/unset, a configured SOC sensor and no prior
direction lock for the current (date, hour), a tick whose live SOC lies in
the hysteresis band `soc_limit - 2 ≤ SOC ≤ soc_limit + 2` vetoes
application (`should_apply = false`), marks revert exactly when the entry's
action equals the (synced) current action, and reverts to the default mode
in that case; but the direction lock is cleared only when `SOC ≥ soc_limit`
— when `soc_limit - 2 ≤ SOC < soc_limit` a `"max"` lock is recorded and
retained for that (date, hour). -/
theorem c1_hysteresis_band_amended
    (locks : List (String × String)) (curr : Option String)
    (cd : String) (ch cm : Nat) (am : Option String) (a : String)
    (L soc : Int) (slt : Option String) (fh : Option Bool) (mins : Option Int)
    (evc man : Option Bool) (sc sm : Bool) (defm : String) (r : TickResult)
    (ha : a ≠ "")
    (hevc : evc.getD false = false)
    (hslt : slt = none ∨ slt = some "auto")
    (hlock : alistGet locks (cd ++ "_" ++ toString ch) = none)
    (h1 : L - 2 ≤ soc) (h2 : soc ≤ L + 2)
    (hr : r = tick locks curr
      ⟨cd, ch, cm, am, some ⟨some a, some L, slt, fh, mins, evc, man⟩,
        true, some soc, sc, sm, defm⟩) :
    r.shouldApply = false ∧
    r.shouldRevert = (r.syncedAction == some a) ∧
    alistGet r.locks (cd ++ "_" ++ toString ch) =
      (if L ≤ soc then none else some "max") ∧
    (r.syncedAction = some a → a ≠ defm → defm ≠ "" →
      r.decision = .applyMode defm) := by
  subst hr
  unfold tick
  simp only [Option.getD_some]
  rw [if_neg ha, hevc]
  dsimp only
  rw [socLimitCheck_first_band _ _ _ _ _ _ _ _ _ hslt
    (by rw [alistGet_filter_eq_self]; exact hlock) h1 h2]
  by_cases hL : L ≤ soc
  all_goals
    first
    | rw [if_pos hL]
    | rw [if_neg hL]
  all_goals
    dsimp only
    rw [minutesCheck_of_vetoed]
    dsimp only
    refine ⟨rfl, rfl, ?_, ?_⟩
  · rw [if_pos hL, alistGet_erase_self]
  · intro hsync hne hdefm
    rw [hsync]
    simp only [beq_self_eq_true, Bool.false_eq_true, if_false, ne_eq,
      Option.some.injEq, true_and]
    rw [if_pos ⟨hne, hdefm⟩]
  · rw [if_neg hL, alistGet_insert_self]
  · intro hsync hne hdefm
    rw [hsync]
    simp only [beq_self_eq_true, Bool.false_eq_true, if_false, ne_eq,
      Option.some.injEq, true_and]
    rw [if_pos ⟨hne, hdefm⟩]

/-- Witness for `c1_hysteresis_band_amended` at the spec's concrete
scenario: SOC sensor reads 50, `soc_limit = 50`, `soc_limit_type = auto`,
entry action currently active, default mode `"idle"`. -/
theorem c1_hysteresis_band_amended_witness :
    (tick [] (some "chg")
        ⟨"2026-10-12", 10, 0, some "chg",
          some ⟨some "chg", some 50, some "auto", none, none, none, none⟩,
          true, some 50, false, false, "idle"⟩).shouldApply = false ∧
    (tick [] (some "chg")
        ⟨"2026-10-12", 10, 0, some "chg",
          some ⟨some "chg", some 50, some "auto", none, none, none, none⟩,
          true, some 50, false, false, "idle"⟩).shouldRevert =
      ((tick [] (some "chg")
        ⟨"2026-10-12", 10, 0, some "chg",
          some ⟨some "chg", some 50, some "auto", none, none, none, none⟩,
          true, some 50, false, false, "idle"⟩).syncedAction == some "chg") ∧
    alistGet
      (tick [] (some "chg")
        ⟨"2026-10-12", 10, 0, some "chg",
          some ⟨some "chg", some 50, some "auto", none, none, none, none⟩,
          true, some 50, false, false, "idle"⟩).locks "2026-10-12_10" =
      (if (50 : Int) ≤ 50 then none else some "max") ∧
    ((tick [] (some "chg")
        ⟨"2026-10-12", 10, 0, some "chg",
          some ⟨some "chg", some 50, some "auto", none, none, none, none⟩,
          true, some 50, false, false, "idle"⟩).syncedAction = some "chg" →
      "chg" ≠ "idle" → "idle" ≠ "" →
      (tick [] (some "chg")
        ⟨"2026-10-12", 10, 0, some "chg",
          some ⟨some "chg", some 50, some "auto", none, none, none, none⟩,
          true, some 50, false, false, "idle"⟩).decision = .applyMode "idle") :=
  c1_hysteresis_band_amended [] (some "chg") "2026-10-12" 10 0 (some "chg")
    "chg" 50 50 (some "auto") none none none none false false "idle" _
    (by decide) rfl (Or.inr rfl) rfl (by decide) (by decide) rfl

theorem resolveSocType_locked (locks0 : List (String × String)) (ck : String)
    (a0 : Option String) (act : String) (sa sr : Bool) (soc L : Int)
    (slt0 : Option String) (d : String)
    (hslt : slt0 = none ∨ slt0 = some "auto")
    (hlock : alistGet locks0 ck = some d) :
    resolveSocType locks0 ck a0 act sa sr soc L slt0 = (sa, sr, locks0, some d) := by
  unfold resolveSocType
  rw [if_pos hslt, hlock]

theorem socLimitCheck_locked (locks0 : List (String × String)) (ck : String)
    (a0 : Option String) (act : String) (sa sr : Bool) (soc L : Int)
    (slt0 : Option String) (d : String)
    (hslt : slt0 = none ∨ slt0 = some "auto")
    (hlock : alistGet locks0 ck = some d) :
    socLimitCheck locks0 ck a0 act sa sr soc L slt0 =
      if (d = "min" ∧ soc ≤ L) ∨ (d = "max" ∧ L ≤ soc) then
        (false, a0 == some act, alistErase locks0 ck, some d)
      else (sa, sr, locks0, some d) := by
  unfold socLimitCheck
  rw [resolveSocType_locked locks0 ck a0 act sa sr soc L slt0 d hslt hlock]
  dsimp only
  simp only [Option.some.injEq]

/-- Claim C2: once a direction `d ∈ {max, min}` is locked for the current
(date, hour) key, a tick evaluating an `auto`/unset entry resolves
`soc_limit_type` to `d` (regardless of the live SOC, so repeated ticks
never change the resolved direction), the lock entry for the current key
survives the tick unless the SOC limit is reached under `d` (SOC ≥ limit
for `max`, SOC ≤ limit for `min`), and every lock entry whose key differs
from the current `"date_hour"` key is purged. -/
theorem c2_direction_lock_stable
    (locks : List (String × String)) (curr : Option String)
    (cd : String) (ch cm : Nat) (am : Option String) (a : String)
    (L soc : Int) (slt : Option String) (fh : Option Bool) (mins : Option Int)
    (evc man : Option Bool) (sc sm : Bool) (defm : String) (d : String)
    (r : TickResult)
    (ha : a ≠ "")
    (hevc : evc.getD false = false)
    (hslt : slt = none ∨ slt = some "auto")
    (hd : d = "max" ∨ d = "min")
    (hlock : alistGet locks (cd ++ "_" ++ toString ch) = some d)
    (hr : r = tick locks curr
      ⟨cd, ch, cm, am, some ⟨some a, some L, slt, fh, mins, evc, man⟩,
        true, some soc, sc, sm, defm⟩) :
    r.resolvedSocType = some d ∧
    alistGet r.locks (cd ++ "_" ++ toString ch) =
      (if (d = "min" ∧ soc ≤ L) ∨ (d = "max" ∧ L ≤ soc) then none else some d) ∧
    (∀ k, k ≠ cd ++ "_" ++ toString ch → alistGet r.locks k = none) := by
  subst hr
  unfold tick
  simp only [Option.getD_some]
  rw [if_neg ha, hevc]
  dsimp only
  rw [socLimitCheck_locked _ _ _ _ _ _ _ _ _ _ hslt
    (by rw [alistGet_filter_eq_self]; exact hlock)]
  by_cases hreach : (d = "min" ∧ soc ≤ L) ∨ (d = "max" ∧ L ≤ soc)
  · rw [if_pos hreach]
    dsimp only
    refine ⟨rfl, ?_, ?_⟩
    · rw [if_pos hreach, alistGet_erase_self]
    · intro k hk
      rw [alistGet_erase_ne _ _ _ hk, alistGet_filter_ne _ _ _ hk]
  · rw [if_neg hreach]
    dsimp only
    refine ⟨rfl, ?_, ?_⟩
    · rw [if_neg hreach, alistGet_filter_eq_self]
      exact hlock
    · intro k hk
      rw [alistGet_filter_ne _ _ _ hk]

/-- Witness for `c2_direction_lock_stable`: a `"max"` lock for the current
hour, SOC 40 below the limit 50: the tick resolves to the locked `"max"`
even though 40 is outside the detection band, and the lock survives. -/
theorem c2_direction_lock_stable_witness :
    (tick [("2026-10-12_10", "max")] (some "chg")
        ⟨"2026-10-12", 10, 0, some "chg",
          some ⟨some "chg", some 50, some "auto", none, none, none, none⟩,
          true, some 40, false, false, "idle"⟩).resolvedSocType = some "max" ∧
    alistGet
      (tick [("2026-10-12_10", "max")] (some "chg")
        ⟨"2026-10-12", 10, 0, some "chg",
          some ⟨some "chg", some 50, some "auto", none, none, none, none⟩,
          true, some 40, false, false, "idle"⟩).locks "2026-10-12_10" =
      (if ("max" = "min" ∧ (40 : Int) ≤ 50) ∨ ("max" = "max" ∧ (50 : Int) ≤ 40)
        then none else some "max") ∧
    (∀ k, k ≠ "2026-10-12_10" →
      alistGet
        (tick [("2026-10-12_10", "max")] (some "chg")
          ⟨"2026-10-12", 10, 0, some "chg",
            some ⟨some "chg", some 50, some "auto", none, none, none, none⟩,
            true, some 40, false, false, "idle"⟩).locks k = none) :=
  c2_direction_lock_stable [("2026-10-12_10", "max")] (some "chg")
    "2026-10-12" 10 0 (some "chg") "chg" 50 40 (some "auto") none none none
    none false false "idle" "max" _
    (by decide) rfl (Or.inr rfl) (Or.inl rfl) rfl rfl

/-- Claim C3: for an entry with `minutes = M` and `full_hour = false` (and
no SOC limit, isolating the minutes check), a tick at minute `m` leaves
`should_apply` true iff `m ≤ M` — the boundary minute `m = M` is still
active — and for `m > M` it vetoes, marks revert exactly when the entry's
action equals the (synced) current action, and then reverts to the default
mode. -/
theorem c3_minutes_boundary
    (locks : List (String × String)) (curr : Option String)
    (cd : String) (ch cm : Nat) (am : Option String) (a : String) (M : Int)
    (slt : Option String) (fh : Option Bool) (evc man : Option Bool)
    (ssc sc sm : Bool) (soc : Option Int) (defm : String) (r : TickResult)
    (ha : a ≠ "")
    (hevc : evc.getD false = false)
    (hfh : fh.getD false = false)
    (hr : r = tick locks curr
      ⟨cd, ch, cm, am, some ⟨some a, none, slt, fh, some M, evc, man⟩,
        ssc, soc, sc, sm, defm⟩) :
    (r.shouldApply = true ↔ (cm : Int) ≤ M) ∧
    (r.shouldRevert = true ↔ (M < (cm : Int) ∧ r.syncedAction = some a)) ∧
    ((cm : Int) ≤ M →
      r.decision = if r.syncedAction ≠ some a then .applyMode a else .noop) ∧
    (M < (cm : Int) → r.syncedAction = some a → a ≠ defm → defm ≠ "" →
      r.decision = .applyMode defm) := by
  subst hr
  unfold tick
  simp only [Option.getD_some]
  rw [if_neg ha, hevc, hfh]
  simp only [Bool.false_eq_true, false_and, if_false]
  rcases ssc
  all_goals
    dsimp only
    unfold minutesCheck
    dsimp only
    by_cases hm : M < (cm : Int)
  all_goals
    first
    | rw [if_pos hm]
    | rw [if_neg hm]
  all_goals dsimp only
  case pos | pos =>
    refine ⟨by simp [hm, not_le.mpr hm], ?_, ?_, ?_⟩
    · constructor
      · intro hb
        exact ⟨hm, by simpa using hb⟩
      · intro hb
        simp [hb.2]
    · intro hle
      exact absurd hm (not_lt.mpr hle)
    · intro _ hsync hne hdefm
      rw [hsync]
      simp only [beq_self_eq_true, Bool.false_eq_true, if_false, ne_eq,
        Option.some.injEq, true_and]
      rw [if_pos ⟨hne, hdefm⟩]
  case neg | neg =>
    refine ⟨by simp [not_lt.mp hm], ?_, ?_, ?_⟩
    · simp [hm]
    · intro _
      simp only [if_true]
    · intro hlt
      exact absurd hlt hm

/-- Witness for `c3_minutes_boundary` at minute 30 with `minutes = 30`
(the boundary minute, still active). -/
theorem c3_minutes_boundary_witness :
    ((tick [] (some "idle")
        ⟨"2026-10-12", 10, 30, some "idle",
          some ⟨some "chg", none, none, none, some 30, none, none⟩,
          true, none, false, false, "idle"⟩).shouldApply = true ↔
      ((30 : Nat) : Int) ≤ 30) ∧
    ((tick [] (some "idle")
        ⟨"2026-10-12", 10, 30, some "idle",
          some ⟨some "chg", none, none, none, some 30, none, none⟩,
          true, none, false, false, "idle"⟩).shouldRevert = true ↔
      ((30 : Int) < ((30 : Nat) : Int) ∧
        (tick [] (some "idle")
          ⟨"2026-10-12", 10, 30, some "idle",
            some ⟨some "chg", none, none, none, some 30, none, none⟩,
            true, none, false, false, "idle"⟩).syncedAction = some "chg")) ∧
    (((30 : Nat) : Int) ≤ 30 →
      (tick [] (some "idle")
        ⟨"2026-10-12", 10, 30, some "idle",
          some ⟨some "chg", none, none, none, some 30, none, none⟩,
          true, none, false, false, "idle"⟩).decision =
        if (tick [] (some "idle")
            ⟨"2026-10-12", 10, 30, some "idle",
              some ⟨some "chg", none, none, none, some 30, none, none⟩,
              true, none, false, false, "idle"⟩).syncedAction ≠ some "chg" then
          .applyMode "chg"
        else .noop) ∧
    ((30 : Int) < ((30 : Nat) : Int) →
      (tick [] (some "idle")
        ⟨"2026-10-12", 10, 30, some "idle",
          some ⟨some "chg", none, none, none, some 30, none, none⟩,
          true, none, false, false, "idle"⟩).syncedAction = some "chg" →
      "chg" ≠ "idle" → "idle" ≠ "" →
      (tick [] (some "idle")
        ⟨"2026-10-12", 10, 30, some "idle",
          some ⟨some "chg", none, none, none, some 30, none, none⟩,
          true, none, false, false, "idle"⟩).decision = .applyMode "idle") :=
  c3_minutes_boundary [] (some "idle") "2026-10-12" 10 30 (some "idle")
    "chg" 30 none none none none true false false none "idle" _
    (by decide) rfl rfl rfl

/-! ### Horizon clamp (`EnergySchedulerCoordinator.async_run_optimization`) -/

/-- The horizon clamp applied before invoking the optimizer
(coordinator.py line 537): `hours_ahead = max(12, min(48, hours_ahead))`. -/
def runOptimizationHoursAhead (hours_ahead : Int) : Int :=
  max 12 (min 48 hours_ahead)

/-- Claim C10: `async_run_optimization` invokes the optimizer with the
clamped horizon `max(12, min(48, hours_ahead))` — inputs below 12 are
raised to 12, inputs above 48 lowered to 48, in-range inputs are passed
through, and the result is always within 12..48 (no input is rejected). -/
theorem c10_hours_ahead_clamped (h : Int) :
    (h < 12 → runOptimizationHoursAhead h = 12) ∧
    (48 < h → runOptimizationHoursAhead h = 48) ∧
    (12 ≤ h → h ≤ 48 → runOptimizationHoursAhead h = h) ∧
    12 ≤ runOptimizationHoursAhead h ∧ runOptimizationHoursAhead h ≤ 48 := by
  unfold runOptimizationHoursAhead
  refine ⟨fun hl => ?_, fun hg => ?_, fun h1 h2 => ?_, ?_, ?_⟩ <;> omega

/-- Witness for `c10_hours_ahead_clamped` at the concrete horizons
5 (raised to 12), 100 (lowered to 48) and 24 (passed through). -/
theorem c10_hours_ahead_clamped_witness :
    runOptimizationHoursAhead 5 = 12 ∧
    runOptimizationHoursAhead 100 = 48 ∧
    runOptimizationHoursAhead 24 = 24 :=
  ⟨(c10_hours_ahead_clamped 5).1 (by decide),
    (c10_hours_ahead_clamped 100).2.1 (by decide),
    (c10_hours_ahead_clamped 24).2.2.1 (by decide) (by decide)⟩

/-! ### Schedule store (`ScheduleStorageManager`) -/

theorem alistGet_cons {β : Type} (kv : String × β) (rest : List (String × β))
    (k : String) :
    alistGet (kv :: rest) k = if kv.1 = k then some kv.2 else alistGet rest k :=
  rfl

/-- Lookup characterization for a key-predicate filter. -/
theorem alistGet_filter_key {β : Type} (l : List (String × β))
    (q : String → Bool) (k : String) :
    alistGet (l.filter (fun kv => q kv.1)) k =
      if q k = true then alistGet l k else none := by
  induction l with
  | nil => simp [alistGet]
  | cons kv rest ih =>
      by_cases hk : kv.1 = k
      · subst hk
        by_cases hq : q kv.1 = true
        · simp [List.filter_cons, hq, alistGet_cons]
        · simp [List.filter_cons, hq, ih]
      · by_cases hq : q kv.1 = true
        · simp [List.filter_cons, hq, alistGet_cons, hk, ih]
        · simp [List.filter_cons, hq, alistGet_cons, hk, ih]

theorem alistGet_mem {β : Type} (l : List (String × β)) (k : String) (v : β)
    (h : alistGet l k = some v) : (k, v) ∈ l := by
  induction l with
  | nil => simp [alistGet] at h
  | cons kv rest ih =>
      rw [alistGet_cons] at h
      by_cases hk : kv.1 = k
      · rw [if_pos hk] at h
        cases kv
        simp_all
      · rw [if_neg hk] at h
        exact List.mem_cons_of_mem _ (ih h)

theorem alistGet_none_of_not_mem_keys {β : Type} (l : List (String × β))
    (k : String) (h : k ∉ l.map Prod.fst) : alistGet l k = none := by
  induction l with
  | nil => rfl
  | cons kv rest ih =>
      simp only [List.map_cons, List.mem_cons] at h
      push_neg at h
      rw [alistGet_cons, if_neg (fun e => h.1 e.symm)]
      exact ih h.2

/-- Lookup in a value-predicate filter of an association list with
duplicate-free keys (Python dict semantics). -/
theorem alistGet_filter_val {β : Type} (l : List (String × β)) (p : β → Bool)
    (k : String) (hnd : (l.map Prod.fst).Nodup) :
    alistGet (l.filter (fun kv => p kv.2)) k =
      (match alistGet l k with
        | some v => if p v = true then some v else none
        | none => none) := by
  induction l with
  | nil => rfl
  | cons kv rest ih =>
      simp only [List.map_cons, List.nodup_cons] at hnd
      by_cases hk : kv.1 = k
      · by_cases hp : p kv.2 = true
        · simp only [List.filter_cons, hp, if_true]
          rw [alistGet_cons, if_pos hk, alistGet_cons, if_pos hk]
          dsimp only
          rw [if_pos hp]
        · have hL : alistGet (List.filter (fun kv => p kv.2) rest) k = none := by
            apply alistGet_none_of_not_mem_keys
            intro hmem
            rcases List.mem_map.mp hmem with ⟨he, hin, hfst⟩
            exact hnd.1 (List.mem_map.mpr
              ⟨he, (List.mem_filter.mp hin).1, hfst.trans hk.symm⟩)
          simp only [List.filter_cons, hp, Bool.false_eq_true, if_false]
          rw [hL, alistGet_cons, if_pos hk]
          dsimp only
          rw [if_neg hp]
      · by_cases hp : p kv.2 = true
        · simp only [List.filter_cons, hp, if_true]
          rw [alistGet_cons, if_neg hk, alistGet_cons, if_neg hk]
          exact ih hnd.2
        · simp only [List.filter_cons, hp, Bool.false_eq_true, if_false]
          rw [ih hnd.2, alistGet_cons, if_neg hk]

/-- `ScheduleStorageManager.get_hour_schedule`:
`self._data.get(date, {}).get(hour)`. -/
def get_hour_schedule (store : List (String × List (String × ScheduleEntry)))
    (date hour : String) : Option ScheduleEntry :=
  match alistGet store date with
  | none => none
  | some day => alistGet day hour

/-- `ScheduleStorageManager.async_clear_date_schedule` (storage_manager.py
lines 93–120), acting on the in-memory `_data` mapping: with
`preserve_manual` keep only hour entries whose `manual` is truthy, dropping
the whole date key when none remain. -/
def clearDateSchedule (store : List (String × List (String × ScheduleEntry)))
    (date : String) (preserve_manual : Bool) :
    List (String × List (String × ScheduleEntry)) :=
  match alistGet store date with
  | none => store
  | some day =>
      if preserve_manual then
        let manualEntries := day.filter (fun he => he.2.manual.getD false)
        if manualEntries.isEmpty then alistErase store date
        else alistInsert store date manualEntries
      else alistErase store date

/-- Claim C9: after `async_clear_date_schedule(date, preserve_manual=True)`
on a date present in the store (with dict-unique hour keys): every hour
entry with truthy `manual` remains present and unchanged, every hour entry
with `manual` absent or false is removed, every other date key is
unchanged, a date with no manual entries loses its date key entirely, and
the date key is never left mapped to an empty bucket. -/
theorem c9_clear_date_preserve_manual
    (store : List (String × List (String × ScheduleEntry)))
    (day : List (String × ScheduleEntry)) (date : String)
    (s' : List (String × List (String × ScheduleEntry)))
    (hday : alistGet store date = some day)
    (hnd : (day.map Prod.fst).Nodup)
    (hs : s' = clearDateSchedule store date true) :
    (∀ hk e, alistGet day hk = some e → e.manual.getD false = true →
      get_hour_schedule s' date hk = some e) ∧
    (∀ hk e, alistGet day hk = some e → e.manual.getD false = false →
      get_hour_schedule s' date hk = none) ∧
    (∀ d, d ≠ date → alistGet s' d = alistGet store d) ∧
    ((∀ he, he ∈ day → he.2.manual.getD false = false) →
      alistGet s' date = none) ∧
    (∀ day', alistGet s' date = some day' → day' ≠ []) := by
  subst hs
  unfold clearDateSchedule
  rw [hday]
  simp only [if_true]
  by_cases hemp : (day.filter (fun he => he.2.manual.getD false)).isEmpty = true
  · rw [if_pos hemp]
    rw [List.isEmpty_iff] at hemp
    refine ⟨?_, ?_, ?_, ?_, ?_⟩
    · intro hk e hget hman
      exfalso
      have hmem : (hk, e) ∈ day := alistGet_mem day hk e hget
      have : (hk, e) ∈ day.filter (fun he => he.2.manual.getD false) :=
        List.mem_filter.mpr ⟨hmem, by simpa using hman⟩
      rw [hemp] at this
      simp at this
    · intro hk e _ _
      unfold get_hour_schedule
      rw [alistGet_erase_self]
    · intro d hd
      exact alistGet_erase_ne store date d hd
    · intro _
      exact alistGet_erase_self store date
    · intro day' hget
      rw [alistGet_erase_self] at hget
      simp at hget
  · rw [if_neg hemp]
    rw [List.isEmpty_iff] at hemp
    refine ⟨?_, ?_, ?_, ?_, ?_⟩
    · intro hk e hget hman
      unfold get_hour_schedule
      rw [alistGet_insert_self]
      dsimp only
      rw [alistGet_filter_val day (fun x => x.manual.getD false) hk hnd, hget]
      dsimp only
      rw [if_pos hman]
    · intro hk e hget hman
      unfold get_hour_schedule
      rw [alistGet_insert_self]
      dsimp only
      rw [alistGet_filter_val day (fun x => x.manual.getD false) hk hnd, hget]
      dsimp only
      rw [if_neg (by simp [hman])]
    · intro d hd
      exact alistGet_insert_ne store date d _ hd
    · intro hall
      exfalso
      apply hemp
      rw [List.filter_eq_nil_iff]
      intro he hmem
      simp [hall he hmem]
    · intro day' hget
      rw [alistGet_insert_self] at hget
      rw [← Option.some_inj.mp hget]
      exact hemp

/-- Witness for `c9_clear_date_preserve_manual` on a concrete store with
one manual and one automatic entry for the date and one other date. -/
theorem c9_clear_date_preserve_manual_witness :
    (∀ hk e,
      alistGet
        [("10", ScheduleEntry.mk (some "chg") none none none none none (some true)),
         ("11", ScheduleEntry.mk (some "sell") none none none none none none)]
        hk = some e →
      e.manual.getD false = true →
      get_hour_schedule
        (clearDateSchedule
          [("2026-10-12",
            [("10", ScheduleEntry.mk (some "chg") none none none none none (some true)),
             ("11", ScheduleEntry.mk (some "sell") none none none none none none)]),
           ("2026-10-13", [("0", ScheduleEntry.mk (some "idle") none none none none none none)])]
          "2026-10-12" true) "2026-10-12" hk = some e) ∧
    (∀ hk e,
      alistGet
        [("10", ScheduleEntry.mk (some "chg") none none none none none (some true)),
         ("11", ScheduleEntry.mk (some "sell") none none none none none none)]
        hk = some e →
      e.manual.getD false = false →
      get_hour_schedule
        (clearDateSchedule
          [("2026-10-12",
            [("10", ScheduleEntry.mk (some "chg") none none none none none (some true)),
             ("11", ScheduleEntry.mk (some "sell") none none none none none none)]),
           ("2026-10-13", [("0", ScheduleEntry.mk (some "idle") none none none none none none)])]
          "2026-10-12" true) "2026-10-12" hk = none) ∧
    (∀ d, d ≠ "2026-10-12" →
      alistGet
        (clearDateSchedule
          [("2026-10-12",
            [("10", ScheduleEntry.mk (some "chg") none none none none none (some true)),
             ("11", ScheduleEntry.mk (some "sell") none none none none none none)]),
           ("2026-10-13", [("0", ScheduleEntry.mk (some "idle") none none none none none none)])]
          "2026-10-12" true) d =
      alistGet
        [("2026-10-12",
          [("10", ScheduleEntry.mk (some "chg") none none none none none (some true)),
           ("11", ScheduleEntry.mk (some "sell") none none none none none none)]),
         ("2026-10-13", [("0", ScheduleEntry.mk (some "idle") none none none none none none)])]
        d) ∧
    ((∀ he, he ∈
        [("10", ScheduleEntry.mk (some "chg") none none none none none (some true)),
         ("11", ScheduleEntry.mk (some "sell") none none none none none none)] →
      he.2.manual.getD false = false) →
      alistGet
        (clearDateSchedule
          [("2026-10-12",
            [("10", ScheduleEntry.mk (some "chg") none none none none none (some true)),
             ("11", ScheduleEntry.mk (some "sell") none none none none none none)]),
           ("2026-10-13", [("0", ScheduleEntry.mk (some "idle") none none none none none none)])]
          "2026-10-12" true) "2026-10-12" = none) ∧
    (∀ day',
      alistGet
        (clearDateSchedule
          [("2026-10-12",
            [("10", ScheduleEntry.mk (some "chg") none none none none none (some true)),
             ("11", ScheduleEntry.mk (some "sell") none none none none none none)]),
           ("2026-10-13", [("0", ScheduleEntry.mk (some "idle") none none none none none none)])]
          "2026-10-12" true) "2026-10-12" = some day' → day' ≠ []) :=
  c9_clear_date_preserve_manual
    [("2026-10-12",
      [("10", ScheduleEntry.mk (some "chg") none none none none none (some true)),
       ("11", ScheduleEntry.mk (some "sell") none none none none none none)]),
     ("2026-10-13", [("0", ScheduleEntry.mk (some "idle") none none none none none none)])]
    [("10", ScheduleEntry.mk (some "chg") none none none none none (some true)),
     ("11", ScheduleEntry.mk (some "sell") none none none none none none)]
    "2026-10-12" _ rfl (by decide) rfl

/-! ### Retention sweep (`ScheduleStorageManager.async_cleanup_old_dates`) -/

/-- Gregorian leap-year rule, as used by Python's `datetime.date`. -/
def isLeapYear (y : Nat) : Bool :=
  (y % 4 == 0 && y % 100 != 0) || y % 400 == 0

/-- Days in month `m` of year `y` (proleptic Gregorian). -/
def daysInMonth (y m : Nat) : Nat :=
  if m = 2 then (if isLeapYear y then 29 else 28)
  else if m = 4 ∨ m = 6 ∨ m = 9 ∨ m = 11 then 30
  else 31

/-- Days in year `y` before the first day of month `m`. -/
def daysBeforeMonth (y m : Nat) : Nat :=
  (List.range (m - 1)).foldl (fun acc i => acc + daysInMonth y (i + 1)) 0

/-- `datetime.date(y, m, d).toordinal()`: day number with 0001-01-01 = 1,
so differences of ordinals are exactly `(today - schedule_date).days`. -/
def toOrdinal (y m d : Nat) : Nat :=
  365 * (y - 1) + (y - 1) / 4 - (y - 1) / 100 + (y - 1) / 400 +
    daysBeforeMonth y m + d

/-- Decimal digit of a character, `none` when not a digit. -/
def digit (c : Char) : Option Nat :=
  if c.isDigit then some (c.toNat - 48) else none

/-- The `%m` field of `strptime`: the regex `1[0-2]|0[1-9]|[1-9]`
(ordered alternation, one or two digits), returning the month and the
unconsumed characters. A two-digit match is never undone by the `"-"`
that follows in the format, since the one-digit fallback would leave a
digit where the `"-"` is required. -/
def parseMonthField : List Char → Option (Nat × List Char)
  | '1' :: c :: rest =>
      if '0' ≤ c ∧ c ≤ '2' then some (10 + (c.toNat - 48), rest)
      else some (1, c :: rest)
  | '0' :: c :: rest =>
      if '1' ≤ c ∧ c ≤ '9' then some (c.toNat - 48, rest) else none
  | c :: rest =>
      if '1' ≤ c ∧ c ≤ '9' then some (c.toNat - 48, rest) else none
  | [] => none

/-- The `%d` field of `strptime` at the end of the format: the regex
`3[0-1]|[1-2]\d|0[1-9]|[1-9]| [1-9]` (first match wins), which must
consume the whole remainder — leftover characters are the
"unconverted data remains" `ValueError`. -/
def parseDayField : List Char → Option Nat
  | [c] => if '1' ≤ c ∧ c ≤ '9' then some (c.toNat - 48) else none
  | '3' :: c :: rest =>
      if '0' ≤ c ∧ c ≤ '1' ∧ rest = [] then some (30 + (c.toNat - 48))
      else none
  | '0' :: c :: rest =>
      if '1' ≤ c ∧ c ≤ '9' ∧ rest = [] then some (c.toNat - 48) else none
  | ' ' :: c :: rest =>
      if '1' ≤ c ∧ c ≤ '9' ∧ rest = [] then some (c.toNat - 48) else none
  | c1 :: c :: rest =>
      if ('1' ≤ c1 ∧ c1 ≤ '2') ∧ c.isDigit ∧ rest = [] then
        some (10 * (c1.toNat - 48) + (c.toNat - 48))
      else none
  | [] => none

/-- Parse of a date key via `datetime.strptime(date_str, "%Y-%m-%d")`,
returning the `toordinal` day number; `none` models the `ValueError`
branch. `%Y` is exactly four digits, while `%m` and `%d` also accept
non-zero-padded values such as `"2026-1-5"` (per CPython's `_strptime`
regexes), and the constructed date is then validated (year ≥ 1, day
within the month). -/
def parseDateOrdinal (s : String) : Option Nat :=
  match s.toList with
  | y1 :: y2 :: y3 :: y4 :: '-' :: rest => do
      let a ← digit y1
      let b ← digit y2
      let c ← digit y3
      let d ← digit y4
      let md ← parseMonthField rest
      match md.2 with
      | '-' :: dayChars => do
          let dd ← parseDayField dayChars
          let y := 1000 * a + 100 * b + 10 * c + d
          let m := md.1
          if 1 ≤ y ∧ 1 ≤ m ∧ m ≤ 12 ∧ 1 ≤ dd ∧ dd ≤ daysInMonth y m then
            some (toOrdinal y m dd)
          else none
      | _ => none
  | _ => none

/-- `ScheduleStorageManager.async_cleanup_old_dates` (storage_manager.py
lines 147–167): delete every date key whose parsed date lies strictly more
than `days_to_keep` days before `today`, and every unparseable key. -/
def cleanupOldDates (store : List (String × List (String × ScheduleEntry)))
    (today : Nat) (days_to_keep : Int) :
    List (String × List (String × ScheduleEntry)) :=
  store.filter (fun kv =>
    match parseDateOrdinal kv.1 with
    | some d => decide ((today : Int) - d ≤ days_to_keep)
    | none => false)

/-- Claim C8: the cleanup pass removes a date key iff its parsed date is
strictly more than `days_to_keep` days before today or the key is
unparseable; a key exactly at the boundary (`today - date = days_to_keep`)
is retained, and every retained key maps to its unchanged entry list. -/
theorem c8_cleanup_retention
    (store : List (String × List (String × ScheduleEntry)))
    (today : Nat) (n : Int)
    (s' : List (String × List (String × ScheduleEntry)))
    (hs : s' = cleanupOldDates store today n) :
    (∀ k d, parseDateOrdinal k = some d → (today : Int) - d ≤ n →
      alistGet s' k = alistGet store k) ∧
    (∀ k d, parseDateOrdinal k = some d → n < (today : Int) - d →
      alistGet s' k = none) ∧
    (∀ k, parseDateOrdinal k = none → alistGet s' k = none) := by
  subst hs
  unfold cleanupOldDates
  refine ⟨?_, ?_, ?_⟩
  · intro k d hp hle
    rw [alistGet_filter_key store
      (fun k => match parseDateOrdinal k with
        | some d => decide ((today : Int) - d ≤ n)
        | none => false) k]
    rw [if_pos (by rw [hp]; exact decide_eq_true hle)]
  · intro k d hp hgt
    rw [alistGet_filter_key store
      (fun k => match parseDateOrdinal k with
        | some d => decide ((today : Int) - d ≤ n)
        | none => false) k]
    rw [if_neg (by rw [hp]; simpa using not_le.mpr hgt)]
  · intro k hp
    rw [alistGet_filter_key store
      (fun k => match parseDateOrdinal k with
        | some d => decide ((today : Int) - d ≤ n)
        | none => false) k]
    rw [if_neg (by rw [hp]; simp)]

/-- Concrete store used by the retention witness. -/
def retentionStore : List (String × List (String × ScheduleEntry)) :=
  [("2026-10-05", [("10", ScheduleEntry.mk (some "chg") none none none none none none)]),
   ("2026-10-04", [("9", ScheduleEntry.mk (some "sell") none none none none none none)]),
   ("2026-10-7", [("8", ScheduleEntry.mk (some "hold") none none none none none none)]),
   ("not-a-date", [("0", ScheduleEntry.mk (some "idle") none none none none none none)])]

/-- Witness for `c8_cleanup_retention` with today = 2026-10-12 and the
default 7-day retention: 2026-10-05 (delta exactly 7) is retained with its
entries unchanged, 2026-10-04 (delta 8) is removed, the non-zero-padded
but strptime-parseable key 2026-10-7 (delta 5) is retained, and an
unparseable key is removed. -/
theorem c8_cleanup_retention_witness :
    alistGet (cleanupOldDates retentionStore (toOrdinal 2026 10 12) 7)
        "2026-10-05" = alistGet retentionStore "2026-10-05" ∧
    alistGet (cleanupOldDates retentionStore (toOrdinal 2026 10 12) 7)
        "2026-10-04" = none ∧
    alistGet (cleanupOldDates retentionStore (toOrdinal 2026 10 12) 7)
        "2026-10-7" = alistGet retentionStore "2026-10-7" ∧
    alistGet (cleanupOldDates retentionStore (toOrdinal 2026 10 12) 7)
        "not-a-date" = none :=
  ⟨(c8_cleanup_retention retentionStore (toOrdinal 2026 10 12) 7 _ rfl).1
      "2026-10-05" (toOrdinal 2026 10 5) (by decide) (by decide),
    (c8_cleanup_retention retentionStore (toOrdinal 2026 10 12) 7 _ rfl).2.1
      "2026-10-04" (toOrdinal 2026 10 4) (by decide) (by decide),
    (c8_cleanup_retention retentionStore (toOrdinal 2026 10 12) 7 _ rfl).1
      "2026-10-7" (toOrdinal 2026 10 7) (by decide) (by decide),
    (c8_cleanup_retention retentionStore (toOrdinal 2026 10 12) 7 _ rfl).2.2
      "not-a-date" (by decide)⟩

/-! ### PV forecast parser (`PVForecastParser`) -/

/-- Canonical hourly forecast record `{date, hour, kwh}`: `pdate` is the
day number `⌊t/24⌋` of the local timestamp, `phour` its hour `⌊t⌋ % 24`. -/
structure PVRec where
  pdate : Int
  phour : Int
  kwh : ℚ
deriving Repr, DecidableEq

/-- Day number of a local timestamp measured in hours. -/
def tsDate (t : ℚ) : Int := ⌊t / 24⌋

/-- Hour-of-day of a local timestamp measured in hours. -/
def tsHour (t : ℚ) : Int := ⌊t⌋ % 24

/-- The recognized forecast-sensor attribute payloads, one constructor per
shape recognized by `_parse_forecast_attributes` (a real sensor carries at
most one of these attributes). Timestamps are local times in hours. -/
inductive PVAttrs where
  /-- Solcast `forecasts`: (period_start, pv_estimate in kW per 30 min). -/
  | forecasts (entries : List (ℚ × ℚ))
  /-- Forecast.Solar `forecast`: timestamp-keyed watt-hour map. -/
  | forecastSolar (entries : List (ℚ × ℚ))
  /-- Solcast `detailedHourly`: (period_start, pv_estimate in kWh). -/
  | detailedHourly (entries : List (ℚ × ℚ))
  /-- Generic `data`: (start, value). -/
  | data (entries : List (ℚ × ℚ))
  /-- `hourly` as a list of values indexed by hour of today. -/
  | hourlyList (vals : List ℚ)
  /-- `hourly` as an hour-keyed map. -/
  | hourlyDict (vals : List (Int × ℚ))
deriving Repr

/-- `_aggregate_to_hourly`: sum records into (date, hour) buckets (first
occurrence order), then sort by (date, hour). -/
def aggregateToHourly (l : List PVRec) : List PVRec :=
  let keys := (l.map (fun r => (r.pdate, r.phour))).eraseDups
  let totals := keys.map (fun k =>
    PVRec.mk k.1 k.2
      (((l.filter (fun r => decide (r.pdate = k.1 ∧ r.phour = k.2))).map
        PVRec.kwh).sum))
  totals.mergeSort (fun a b =>
    decide (a.pdate < b.pdate ∨ (a.pdate = b.pdate ∧ a.phour ≤ b.phour)))

/-- `_parse_solcast_format`: 30-minute kW estimates become kWh via the
×0.5 factor; entries more than 1 hour in the past are dropped; the rest is
aggregated to hourly buckets. -/
def parseSolcast (entries : List (ℚ × ℚ)) (now : ℚ) : List PVRec :=
  aggregateToHourly (entries.filterMap (fun e =>
    if e.1 < now - 1 then none
    else some (PVRec.mk (tsDate e.1) (tsHour e.1) (e.2 * (1 / 2)))))

/-- `_parse_forecast_solar_format`: watt-hours divided by 1000. -/
def parseForecastSolar (entries : List (ℚ × ℚ)) (now : ℚ) : List PVRec :=
  aggregateToHourly (entries.filterMap (fun e =>
    if e.1 < now - 1 then none
    else some (PVRec.mk (tsDate e.1) (tsHour e.1) (e.2 / 1000))))

/-- `_parse_detailed_hourly_format`: hourly kWh, no aggregation. -/
def parseDetailedHourly (entries : List (ℚ × ℚ)) (now : ℚ) : List PVRec :=
  entries.filterMap (fun e =>
    if e.1 < now - 1 then none
    else some (PVRec.mk (tsDate e.1) (tsHour e.1) e.2))

/-- `_parse_generic_data_format`: start/value records, aggregated. -/
def parseGenericData (entries : List (ℚ × ℚ)) (now : ℚ) : List PVRec :=
  aggregateToHourly (entries.filterMap (fun e =>
    if e.1 < now - 1 then none
    else some (PVRec.mk (tsDate e.1) (tsHour e.1) e.2)))

/-- `_parse_hourly_format`, list shape: values indexed by hour of today.
(The source raises for indices ≥ 24 — `time.replace(hour=h)` — so the
model's domain is lists of at most 24 values.) -/
def parseHourlyList (vals : List ℚ) (now : ℚ) : List PVRec :=
  vals.enum.filterMap (fun hv =>
    let ft : ℚ := (tsDate now : ℚ) * 24 + hv.1
    if ft < now - 1 then none
    else some (PVRec.mk (tsDate now) hv.1 hv.2))

/-- `_parse_hourly_format`, dict shape: hour-keyed values; out-of-range
hours raise `ValueError` inside the per-entry `try` and are skipped. -/
def parseHourlyDict (vals : List (Int × ℚ)) (now : ℚ) : List PVRec :=
  vals.filterMap (fun hv =>
    if 0 ≤ hv.1 ∧ hv.1 < 24 then
      let ft : ℚ := (tsDate now : ℚ) * 24 + hv.1
      if ft < now - 1 then none
      else some (PVRec.mk (tsDate now) hv.1 hv.2)
    else none)

/-- `_parse_forecast_attributes`: dispatch on the recognized attribute,
`none` when no recognized attribute is present. -/
def parseForecastAttributes (attrs : Option PVAttrs) (now : ℚ) :
    Option (List PVRec) :=
  match attrs with
  | some (.forecasts es) => some (parseSolcast es now)
  | some (.forecastSolar es) => some (parseForecastSolar es now)
  | some (.detailedHourly es) => some (parseDetailedHourly es now)
  | some (.data es) => some (parseGenericData es now)
  | some (.hourlyList vs) => some (parseHourlyList vs now)
  | some (.hourlyDict vs) => some (parseHourlyDict vs now)
  | none => none

/-- `_generate_zero_forecast`: `hours_ahead` consecutive hourly records
with `kwh = 0`, starting at `now`. -/
def generateZeroForecast (now : ℚ) (hours_ahead : Nat) : List PVRec :=
  (List.range hours_ahead).map (fun (o : Nat) =>
    PVRec.mk (tsDate (now + (o : ℚ))) (tsHour (now + (o : ℚ))) 0)

/-- The fixed bell-curve weight table of `_distribute_daily_forecast`. -/
def solarWeight (h : Int) : ℚ :=
  if h = 6 then 2/100 else if h = 7 then 5/100 else if h = 8 then 8/100
  else if h = 9 then 11/100 else if h = 10 then 13/100
  else if h = 11 then 14/100 else if h = 12 then 14/100
  else if h = 13 then 13/100 else if h = 14 then 11/100
  else if h = 15 then 8/100 else if h = 16 then 5/100
  else if h = 17 then 2/100 else if h = 18 then 1/100 else 0

/-- `_distribute_daily_forecast`: spread a daily total over the next
`hours_ahead` hours using the bell-curve weights. -/
def distributeDailyForecast (daily_total : ℚ) (now : ℚ) (hours_ahead : Nat) :
    List PVRec :=
  (List.range hours_ahead).map (fun (o : Nat) =>
    PVRec.mk (tsDate (now + (o : ℚ))) (tsHour (now + (o : ℚ)))
      (daily_total * solarWeight (tsHour (now + (o : ℚ)))))

/-- Forecast sensor snapshot: `stateVal` is the sensor state parsed as a
float (`none` models the `ValueError`/`TypeError` branch), `attrs` the
recognized attribute payload, if any. -/
structure PVSensorState where
  stateVal : Option ℚ
  attrs : Option PVAttrs

/-- `PVForecastParser.get_hourly_forecast` (pv_forecast.py lines 22–52):
no configured sensor or missing entity yields the zero forecast; a falsy
parse result falls back to distributing the state value as a daily total,
and to the zero forecast when the state is not a number. -/
def get_hourly_forecast (sensorConfigured : Bool)
    (sensor : Option PVSensorState) (now : ℚ) (hours_ahead : Nat) :
    List PVRec :=
  if !sensorConfigured then generateZeroForecast now hours_ahead
  else
    match sensor with
    | none => generateZeroForecast now hours_ahead
    | some st =>
        match parseForecastAttributes st.attrs now with
        | some l =>
            if l.isEmpty then
              match st.stateVal with
              | some v => distributeDailyForecast v now hours_ahead
              | none => generateZeroForecast now hours_ahead
            else l
        | none =>
            match st.stateVal with
            | some v => distributeDailyForecast v now hours_ahead
            | none => generateZeroForecast now hours_ahead

/-- `PVForecastParser.get_forecast_sum`. -/
def get_forecast_sum (sensorConfigured : Bool) (sensor : Option PVSensorState)
    (now : ℚ) (hours_ahead : Nat) : ℚ :=
  ((get_hourly_forecast sensorConfigured sensor now hours_ahead).map
    PVRec.kwh).sum

/-- Claim C7, counterexample: a configured, present sensor whose `hourly`
attribute is the one-element list `[1]` makes `get_hourly_forecast 48`
return a single record for hour 0 of today — the requested 48-hour horizon
is not covered (hour 1 has no record), contradicting "always covering the
requested horizon". -/
theorem c7_horizon_not_covered_counterexample :
    get_hourly_forecast true
        (PVSensorState.mk (some 5) (some (.hourlyList [1]))) 0 48 =
      [PVRec.mk 0 0 1] ∧
    ¬ (∃ r ∈ get_hourly_forecast true
        (PVSensorState.mk (some 5) (some (.hourlyList [1]))) 0 48,
        r.pdate = 0 ∧ r.phour = 1) := by
  constructor
  · with_unfolding_all decide
  · with_unfolding_all decide

/-- Claim C7, amended: `get_hourly_forecast` returns the canonical
`{date, hour, kwh}` records, and in the default cases — sensor not
configured, sensor entity missing, or payload unparseable (no recognized
attribute or an empty parse, with a non-numeric state) — it returns exactly
`hours_ahead` consecutive hourly records with `kwh = 0`; a successful
nonempty parse is returned as-is and need not cover the horizon. -/
theorem c7_default_zero_forecast_amended
    (sensorConfigured : Bool) (sensor : Option PVSensorState)
    (now : ℚ) (hours_ahead : Nat)
    (hdefault :
      sensorConfigured = false ∨ sensor = none ∨
      (∃ st, sensor = some st ∧ st.stateVal = none ∧
        (parseForecastAttributes st.attrs now = none ∨
         parseForecastAttributes st.attrs now = some []))) :
    get_hourly_forecast sensorConfigured sensor now hours_ahead =
      generateZeroForecast now hours_ahead ∧
    (get_hourly_forecast sensorConfigured sensor now hours_ahead).length =
      hours_ahead ∧
    (∀ i, i < hours_ahead →
      (get_hourly_forecast sensorConfigured sensor now hours_ahead)[i]? =
        some (PVRec.mk (tsDate (now + (i : ℚ))) (tsHour (now + (i : ℚ))) 0)) := by
  have hzero : get_hourly_forecast sensorConfigured sensor now hours_ahead =
      generateZeroForecast now hours_ahead := by
    rcases hdefault with hc | hn | ⟨st, hst, hsv, hp⟩
    · subst hc
      rfl
    · subst hn
      rcases sensorConfigured with _ | _ <;> rfl
    · subst hst
      unfold get_hourly_forecast
      rcases sensorConfigured with _ | _
      · rfl
      · simp only [Bool.not_true, Bool.false_eq_true, if_false]
        rcases hp with hp | hp
        · rw [hp]
          dsimp only
          rw [hsv]
        · rw [hp]
          dsimp only
          simp only [List.isEmpty_nil, if_true]
          rw [hsv]
  refine ⟨hzero, ?_, ?_⟩
  · rw [hzero]
    unfold generateZeroForecast
    rw [List.length_map, List.length_range]
  · intro i hi
    rw [hzero]
    unfold generateZeroForecast
    rw [List.getElem?_map, List.getElem?_range hi]
    rfl

/-- Witness for `c7_default_zero_forecast_amended`: no sensor configured,
horizon 2, checking the record at offset 1. -/
theorem c7_default_zero_forecast_amended_witness :
    get_hourly_forecast false none 0 2 = generateZeroForecast 0 2 ∧
    (get_hourly_forecast false none 0 2).length = 2 ∧
    (get_hourly_forecast false none 0 2)[1]? =
      some (PVRec.mk (tsDate ((0 : ℚ) + (1 : Nat))) (tsHour ((0 : ℚ) + (1 : Nat))) 0) :=
  ⟨(c7_default_zero_forecast_amended false none 0 2 (Or.inl rfl)).1,
    (c7_default_zero_forecast_amended false none 0 2 (Or.inl rfl)).2.1,
    (c7_default_zero_forecast_amended false none 0 2 (Or.inl rfl)).2.2 1
      (by decide)⟩

/-! ### Energy optimizer (`EnergyOptimizer`) -/

/-- Python `int()` truncation toward zero on a float, as `ℚ → ℤ`. -/
def pyInt (q : ℚ) : Int := if 0 ≤ q then Rat.floor q else -(Rat.floor (-q))

/-- Python list slicing `l[:n]` with an `int` bound (negative bounds count
from the end, clamped at zero). -/
def pySlice {α : Type} (l : List α) (n : Int) : List α :=
  if 0 ≤ n then l.take n.toNat else l.take (l.length - (-n).toNat)

/-- Static optimizer configuration (the `EnergyOptimizer` configuration
properties, with the source defaults already substituted). -/
structure OptConfig where
  battery_capacity : ℚ
  battery_min_soc : ℚ
  battery_max_charge_power : ℚ
  /-- the raw `battery_max_discharge_power` config value (0.0 when unset) -/
  battery_max_discharge_power_raw : ℚ
  battery_cost : ℚ
  battery_cycles : Int
  avg_consumption : ℚ
  max_grid_power : ℚ
  ev_enabled : Bool
  ev_battery_capacity : ℚ
  ev_max_charge_power : ℚ
  ev_target_soc : ℚ
deriving Repr, DecidableEq

/-- `battery_max_discharge_power` property: falls back to the charge power
when the configured value is ≤ 0. -/
def OptConfig.battery_max_discharge_power (c : OptConfig) : ℚ :=
  if c.battery_max_discharge_power_raw ≤ 0 then c.battery_max_charge_power
  else c.battery_max_discharge_power_raw

/-- One buy/sell price record handed to the optimizer (the coordinator's
converted `{date, hour, value}`, dates as day numbers). -/
structure PriceRec where
  pdate : Int
  phour : Int
  value : ℚ
deriving Repr, DecidableEq

/-- An hour record inside an `OptimizationResult` list: the price/forecast
dict with its optional computed keys (`value` is absent on solar-only
records). -/
structure HourRec where
  pdate : Int
  phour : Int
  value : Option ℚ
  effective_price : Option ℚ
  hours_from_now : Option ℚ
  profit : Option ℚ
  pv_kwh : Option ℚ
deriving Repr, DecidableEq

/-- A raw price record viewed as a result hour record. -/
def PriceRec.toHourRec (p : PriceRec) : HourRec :=
  ⟨p.pdate, p.phour, some p.value, none, none, none, none⟩

/-- `OptimizationResult` (the diagnostic reason strings are elided from
the model; only their presence-driving booleans are kept). -/
structure OptimizationResult where
  charge_hours : List HourRec := []
  discharge_hours : List HourRec := []
  solar_hours : List HourRec := []
  emergency_charge : Bool := false
  ev_urgent_charge : Bool := false
  skip_night_charge : Bool := false
  total_deficit : ℚ := 0
  cycle_cost : ℚ := 0
  warnings : List String := []
deriving Repr

/-- All external reads of one `optimize(hours_ahead)` run. -/
structure OptInput where
  cfg : OptConfig
  /-- `_get_battery_soc()` -/
  battery_soc : Option ℚ
  /-- `_get_ev_soc()` -/
  ev_soc : Option ℚ
  /-- `_is_ev_connected()` -/
  ev_connected : Bool
  /-- `ev_ready_by` parsed as an hour-of-day, `none` when absent/invalid -/
  ev_ready_by : Option ℚ
  /-- `dt_util.now()` as local hours since the epoch -/
  now : ℚ
  buy_prices : List PriceRec
  sell_prices : List PriceRec
  /-- truthiness of the configured PV forecast sensor id -/
  pvConfigured : Bool
  /-- PV forecast sensor snapshot -/
  pvSensor : Option PVSensorState

/-- `calculate_cycle_cost`: `(cost / cycles) / (2 × capacity)`, zero when
cycles or capacity are unset/non-positive. -/
def calculate_cycle_cost (c : OptConfig) : ℚ :=
  if c.battery_cycles ≤ 0 ∨ c.battery_capacity ≤ 0 then 0
  else (c.battery_cost / (c.battery_cycles : ℚ)) / (c.battery_capacity * 2)

/-- `_get_effective_charge_power`: battery and EV charge power, scaled
proportionally when their sum exceeds the grid cap. -/
def getEffectiveChargePower (inp : OptInput) : ℚ × ℚ :=
  let battery_power := inp.cfg.battery_max_charge_power
  let ev_power :=
    if inp.cfg.ev_enabled ∧ inp.ev_connected then inp.cfg.ev_max_charge_power
    else 0
  let total_needed := battery_power + ev_power
  if total_needed > inp.cfg.max_grid_power then
    let ratio := inp.cfg.max_grid_power / total_needed
    (battery_power * ratio, ev_power * ratio)
  else (battery_power, ev_power)

/-- `_hours_from_now` for a record with a parseable date. -/
def hoursFromNow (now : ℚ) (pdate phour : Int) : ℚ :=
  ((24 * pdate + phour : Int) : ℚ) - now

/-- The fields of `calculate_energy_balance`. -/
structure EnergyBalance where
  consumption : ℚ
  solar_production : ℚ
  usable_battery : ℚ
  ev_need : ℚ
  deficit : ℚ
deriving Repr, DecidableEq

/-- `calculate_energy_balance`. -/
def calculate_energy_balance (inp : OptInput) (hours_ahead : Nat) :
    EnergyBalance :=
  let battery_soc := inp.battery_soc.getD 0
  let usable_battery :=
    max 0 (inp.cfg.battery_capacity * (battery_soc - inp.cfg.battery_min_soc) / 100)
  let consumption := (hours_ahead : ℚ) * inp.cfg.avg_consumption
  let solar_production :=
    get_forecast_sum inp.pvConfigured inp.pvSensor inp.now hours_ahead
  let ev_need :=
    if inp.cfg.ev_enabled ∧ inp.ev_connected then
      max 0 (inp.cfg.ev_battery_capacity *
        (inp.cfg.ev_target_soc - inp.ev_soc.getD 0) / 100)
    else 0
  let deficit := max 0 (consumption - solar_production - usable_battery + ev_need)
  ⟨consumption, solar_production, usable_battery, ev_need, deficit⟩

/-- The (date, hour) key of a local timestamp. -/
def tsKey (t : ℚ) : Int × Int := (tsDate t, tsHour t)

/-- Result of `check_emergency_charge` (reason text elided). -/
structure EmergencyResult where
  emergency : Bool
  hours : List PriceRec
deriving Repr, DecidableEq

/-- `check_emergency_charge` (optimizer.py lines 318–395): emergency when
the battery plus forecast solar cannot cover consumption until the next
cheapest-quartile hour; then the cheapest hours strictly before that hour
are selected as mandatory charge hours. -/
def check_emergency_charge (inp : OptInput) (pv_forecast : List PVRec) :
    EmergencyResult :=
  let battery_soc := inp.battery_soc.getD 0
  let available_energy :=
    max 0 (inp.cfg.battery_capacity * (battery_soc - inp.cfg.battery_min_soc) / 100)
  if inp.buy_prices.isEmpty then ⟨false, []⟩
  else
    let sorted_prices :=
      inp.buy_prices.mergeSort (fun a b => decide (a.value ≤ b.value))
    let cheap_threshold_idx := max 1 (sorted_prices.length / 4)
    let cheap_hours :=
      (sorted_prices.take cheap_threshold_idx).map (fun p => (p.pdate, p.phour))
    let hours_until_cheap : Nat :=
      match (List.range 48).find?
          (fun (o : Nat) => cheap_hours.contains (tsKey (inp.now + (o : ℚ)))) with
      | some o => o
      | none => 24
    if hours_until_cheap = 0 then ⟨false, []⟩
    else
      let energy_needed := (hours_until_cheap : ℚ) * inp.cfg.avg_consumption
      let pv_until_cheap := ((pv_forecast.take hours_until_cheap).map PVRec.kwh).sum
      let energy_available := available_energy + pv_until_cheap
      if energy_needed > energy_available then
        let deficit := energy_needed - energy_available
        let hours_needed : Int :=
          if inp.cfg.battery_max_charge_power ≤ 0 then Rat.ceil deficit
          else Rat.ceil (deficit / inp.cfg.battery_max_charge_power)
        let immediate_prices := inp.buy_prices.filter (fun p =>
          decide (hoursFromNow inp.now p.pdate p.phour < (hours_until_cheap : ℚ)))
        let sorted_imm :=
          immediate_prices.mergeSort (fun a b => decide (a.value ≤ b.value))
        ⟨true, pySlice sorted_imm hours_needed⟩
      else ⟨false, []⟩

/-- `check_ev_charging_feasibility`, reduced to its urgency verdict. -/
def ev_urgent (inp : OptInput) : Bool :=
  if ¬ (inp.cfg.ev_enabled ∧ inp.ev_connected) then false
  else
    match inp.ev_ready_by with
    | none => false
    | some rb =>
        let ready_dt := (tsDate inp.now : ℚ) * 24 + rb
        let ready_dt := if ready_dt ≤ inp.now then ready_dt + 24 else ready_dt
        let hours_available := ready_dt - inp.now
        let ev_energy_needed :=
          max 0 (inp.cfg.ev_battery_capacity *
            (inp.cfg.ev_target_soc - inp.ev_soc.getD 0) / 100)
        if 0 < inp.cfg.ev_max_charge_power then
          decide (ev_energy_needed / inp.cfg.ev_max_charge_power > hours_available)
        else true

/-- `should_skip_night_charge`: forecast daylight (06–18) solar exceeds
1.2 × twelve hours of average consumption. -/
def should_skip_night_charge (cfg : OptConfig) (pv_forecast : List PVRec) :
    Bool :=
  if pv_forecast.isEmpty then false
  else
    let tomorrow_pv :=
      ((pv_forecast.filter (fun p => decide (6 ≤ p.phour ∧ p.phour < 18))).map
        PVRec.kwh).sum
    let tomorrow_consumption := 12 * cfg.avg_consumption
    decide (tomorrow_pv > tomorrow_consumption * (6 / 5))

/-- The PV forecast list used throughout one `optimize` run. -/
def optimizePV (inp : OptInput) (hours_ahead : Nat) : List PVRec :=
  get_hourly_forecast inp.pvConfigured inp.pvSensor inp.now hours_ahead

/-- The in-horizon effective-price list of `optimize` (optimizer.py lines
582–594): buy prices with `0 ≤ hours_from_now < hours_ahead`, the cycle
cost added, sorted ascending by effective price (stable). -/
def sortedEffectivePrices (inp : OptInput) (hours_ahead : Nat) : List HourRec :=
  let cc := calculate_cycle_cost inp.cfg
  (inp.buy_prices.filterMap (fun p =>
    let h := hoursFromNow inp.now p.pdate p.phour
    if 0 ≤ h ∧ h < (hours_ahead : ℚ) then
      some ⟨p.pdate, p.phour, some p.value, some (p.value + cc), some h,
        none, none⟩
    else none)).mergeSort
      (fun a b => decide (a.effective_price.getD 0 ≤ b.effective_price.getD 0))

/-- The effective-price list after the night filter (optimizer.py lines
612–618): night hours (22:00–06:00) are removed when `skip_night_charge`
holds and no emergency is active. -/
def nightFilteredPrices (inp : OptInput) (hours_ahead : Nat) : List HourRec :=
  let skip_night := should_skip_night_charge inp.cfg (optimizePV inp hours_ahead)
  let emergency := check_emergency_charge inp (optimizePV inp hours_ahead)
  if skip_night ∧ emergency.emergency = false then
    (sortedEffectivePrices inp hours_ahead).filter
      (fun p => !(decide (p.phour ≥ 22 ∨ p.phour < 6)))
  else sortedEffectivePrices inp hours_ahead

/-- The emergency pass's charge hours as result records. -/
def emergencyHourRecs (inp : OptInput) (hours_ahead : Nat) : List HourRec :=
  (check_emergency_charge inp (optimizePV inp hours_ahead)).hours.map
    PriceRec.toHourRec

/-- Economic charge hours needed (optimizer.py lines 596–603):
`ceil(deficit / (battery_power + ev_power))` over the grid-capped powers,
zero when the total power is not positive. -/
def econHoursNeeded (inp : OptInput) (hours_ahead : Nat) : Int :=
  let powers := getEffectiveChargePower inp
  let total_charge_power := powers.1 + powers.2
  if 0 < total_charge_power then
    Rat.ceil ((calculate_energy_balance inp hours_ahead).deficit / total_charge_power)
  else 0

/-- The additional (non-emergency) charge hours (optimizer.py lines
620–627): the first `hours_needed` night-filtered effective prices, minus
those already claimed by the emergency pass. -/
def additionalChargeHours (inp : OptInput) (hours_ahead : Nat) : List HourRec :=
  let emergency_keys := (emergencyHourRecs inp hours_ahead).map
    (fun h => (h.pdate, h.phour))
  (pySlice (nightFilteredPrices inp hours_ahead) (econHoursNeeded inp hours_ahead)).filter
    (fun p => !(emergency_keys.contains (p.pdate, p.phour)))

/-- The full charge-hour list of one run. -/
def optimizeChargeHours (inp : OptInput) (hours_ahead : Nat) : List HourRec :=
  emergencyHourRecs inp hours_ahead ++ additionalChargeHours inp hours_ahead

/-- `effective_prices[0]["effective_price"]` (meaningful when the
night-filtered list is nonempty). -/
def minBuyEffectivePrice (inp : OptInput) (hours_ahead : Nat) : ℚ :=
  ((nightFilteredPrices inp hours_ahead).head?.map
    (fun p => p.effective_price.getD 0)).getD 0

/-- Python float truthiness fallback `x or default`: both `None` and a
falsy `0.0` reading yield the default. -/
def pyOrDefault (x : Option ℚ) (default : ℚ) : ℚ :=
  match x with
  | none => default
  | some v => if v = 0 then default else v

/-- `max_discharge_hours` (optimizer.py lines 638–655):
`int(total_discharge_available / discharge_power)` where the available
energy is `min(charge_energy + current_usable, usable_capacity)`; the
battery SOC read uses `self._get_battery_soc() or 50.0`, so a missing or
0.0 reading falls back to 50. -/
def maxDischargeHours (inp : OptInput) (hours_ahead : Nat) : Int :=
  let charge_energy := ((optimizeChargeHours inp hours_ahead).length : ℚ) *
    inp.cfg.battery_max_charge_power
  let current_soc := pyOrDefault inp.battery_soc 50
  let usable_capacity :=
    inp.cfg.battery_capacity * (1 - inp.cfg.battery_min_soc / 100)
  let current_usable :=
    max 0 (inp.cfg.battery_capacity * (current_soc - inp.cfg.battery_min_soc) / 100)
  let total_discharge_available :=
    min (charge_energy + current_usable) usable_capacity
  let discharge_power := inp.cfg.battery_max_discharge_power
  if 0 < discharge_power then pyInt (total_discharge_available / discharge_power)
  else 0

/-- The candidate discharge hours (optimizer.py lines 665–695): sell
prices above the round-trip threshold, not already charge hours, with
forecast solar below 0.1 kWh, within the horizon; each carries its
profit. -/
def dischargeCandidates (inp : OptInput) (hours_ahead : Nat) : List HourRec :=
  let cc := calculate_cycle_cost inp.cfg
  let min_buy_price := minBuyEffectivePrice inp hours_ahead
  let discharge_threshold := min_buy_price + 2 * cc
  let charge_keys : List (Int × Int) := (optimizeChargeHours inp hours_ahead).map
    (fun h => (h.pdate, h.phour))
  inp.sell_prices.filterMap (fun s =>
    let h := hoursFromNow inp.now s.pdate s.phour
    let pv_for_hour :=
      (((optimizePV inp hours_ahead).filter
        (fun p => decide (p.pdate = s.pdate ∧ p.phour = s.phour))).map
        PVRec.kwh).sum
    if s.value > discharge_threshold ∧ ¬ (s.pdate, s.phour) ∈ charge_keys ∧
        pv_for_hour < 1 / 10 ∧ 0 ≤ h ∧ h < (hours_ahead : ℚ) then
      some (⟨s.pdate, s.phour, some s.value, none, some h,
        some (s.value - min_buy_price - 2 * cc), none⟩ : HourRec)
    else none)

/-- The comparison of `sort(key=profit, reverse=True)`: profit
descending. -/
def profitDescLe (a b : HourRec) : Bool :=
  decide (b.profit.getD 0 ≤ a.profit.getD 0)

/-- The selected discharge hours (optimizer.py lines 697–699): candidates
sorted by profit descending (stable), truncated to `max_discharge_hours`;
empty when the (night-filtered) effective-price list is empty. -/
def optimizeDischargeHours (inp : OptInput) (hours_ahead : Nat) : List HourRec :=
  match nightFilteredPrices inp hours_ahead with
  | [] => []
  | _ :: _ =>
      pySlice
        ((dischargeCandidates inp hours_ahead).mergeSort profitDescLe)
        (maxDischargeHours inp hours_ahead)

/-- The solar-only hours (optimizer.py lines 704–716): forecast hours with
more than 0.1 kWh not already claimed as charge or discharge hours. -/
def optimizeSolarHours (inp : OptInput) (hours_ahead : Nat) : List HourRec :=
  let charge_keys : List (Int × Int) := (optimizeChargeHours inp hours_ahead).map
    (fun h => (h.pdate, h.phour))
  let discharge_keys : List (Int × Int) := (optimizeDischargeHours inp hours_ahead).map
    (fun h => (h.pdate, h.phour))
  (optimizePV inp hours_ahead).filterMap (fun (pv : PVRec) =>
    if pv.kwh > 1 / 10 ∧ ((pv.pdate, pv.phour) ∉ charge_keys) ∧
        ((pv.pdate, pv.phour) ∉ discharge_keys) then
      some (⟨pv.pdate, pv.phour, none, none, none, none, some pv.kwh⟩ : HourRec)
    else none)

/-- `EnergyOptimizer.optimize` (optimizer.py lines 467–741), composed of
the stage functions above exactly as the source composes its inline
blocks. Warning text for the EV advisory is elided to a fixed prefix. -/
def optimize (inp : OptInput) (hours_ahead : Nat) : OptimizationResult :=
  if inp.buy_prices.isEmpty then
    { warnings := ["No buy price data available, using default mode"] }
  else
    let anomaly_warnings := inp.buy_prices.filterMap (fun b =>
      match inp.sell_prices.find?
          (fun s => decide (s.pdate = b.pdate ∧ s.phour = b.phour)) with
      | some s =>
          if s.value > b.value then
            some ("Price anomaly at " ++ toString b.pdate ++ " " ++
              toString b.phour ++ ":00 - sell > buy")
          else none
      | none => none)
    let emergency := check_emergency_charge inp (optimizePV inp hours_ahead)
    let ev_urg := ev_urgent inp
    let warnings := anomaly_warnings ++ (if ev_urg then ["EV urgent charge"] else [])
    let balance := calculate_energy_balance inp hours_ahead
    { charge_hours := optimizeChargeHours inp hours_ahead
      discharge_hours := optimizeDischargeHours inp hours_ahead
      solar_hours := optimizeSolarHours inp hours_ahead
      emergency_charge := emergency.emergency
      ev_urgent_charge := ev_urg
      skip_night_charge := should_skip_night_charge inp.cfg (optimizePV inp hours_ahead)
      total_deficit := balance.deficit
      cycle_cost := calculate_cycle_cost inp.cfg
      warnings := warnings }

/-- Claim C6: with an empty buy-price list, `optimize` returns a result
whose charge, discharge and solar hour lists are all empty and whose
warnings contain the missing-buy-price warning; modelled as a total
function, the call returns this value (never raises to the caller). -/
theorem c6_empty_buy_prices (inp : OptInput) (hours_ahead : Nat)
    (h : inp.buy_prices = []) :
    (optimize inp hours_ahead).charge_hours = [] ∧
    (optimize inp hours_ahead).discharge_hours = [] ∧
    (optimize inp hours_ahead).solar_hours = [] ∧
    "No buy price data available, using default mode" ∈
      (optimize inp hours_ahead).warnings := by
  unfold optimize
  rw [h]
  exact ⟨rfl, rfl, rfl, by simp⟩

/-- Concrete input with no buy-price data. -/
def emptyBuyInput : OptInput :=
  ⟨⟨10, 20, 5, 0, 0, 1, 1, 8, false, 0, 0, 80⟩,
    some 50, none, false, none, 0, [], [], false, none⟩

/-- Witness for `c6_empty_buy_prices`. -/
theorem c6_empty_buy_prices_witness :
    (optimize emptyBuyInput 24).charge_hours = [] ∧
    (optimize emptyBuyInput 24).discharge_hours = [] ∧
    (optimize emptyBuyInput 24).solar_hours = [] ∧
    "No buy price data available, using default mode" ∈
      (optimize emptyBuyInput 24).warnings :=
  c6_empty_buy_prices emptyBuyInput 24 rfl

/-- Claim C4 counterexample input: now = hour 0 of day 0, zero PV, battery
at its minimum SOC, three buy prices at hours 1–3 with hour 2 cheapest.
The emergency pass claims hour 1; the economic pass needs 2 hours. -/
def c4Input : OptInput :=
  ⟨⟨10, 20, 5, 0, 0, 1, 3/10, 100, false, 0, 0, 80⟩,
    some 20, none, false, none, 0,
    [⟨0, 1, 1/20⟩, ⟨0, 2, 1/25⟩, ⟨0, 3, 1/2⟩], [], false, none⟩

set_option maxRecDepth 40000 in
/-- Claim C4, counterexample: on `c4Input` the economic pass needs 2 hours
and 2 cheap non-emergency in-horizon hours exist, yet only 1 additional
charge hour is selected — because the source slices the cheapest
`hours_needed` hours BEFORE removing emergency-claimed ones, the claim's
"selects exactly that many cheapest remaining hours" fails. -/
theorem c4_emergency_overlap_counterexample :
    econHoursNeeded c4Input 24 = 2 ∧
    ((nightFilteredPrices c4Input 24).filter
      (fun p => !(((emergencyHourRecs c4Input 24).map
        (fun h => (h.pdate, h.phour))).contains (p.pdate, p.phour)))).length = 2 ∧
    (additionalChargeHours c4Input 24).length = 1 ∧
    (optimize c4Input 24).charge_hours.length = 2 := by
  refine ⟨?_, ?_, ?_, ?_⟩ <;> with_unfolding_all decide

/-- Claim C4, amended: for a run with nonempty buy prices and positive raw
charge power sum, the grid-capped total charge power equals
`max_grid_power` when the raw sum exceeds it (else the raw sum); when the
capped total is positive the economic pass needs
`ceil(deficit / total)` hours; and the charge hours are the emergency
hours followed by those among the `hours_needed` cheapest night-filtered
effective-price hours not already claimed by the emergency pass (possibly
fewer than `hours_needed` when emergency hours rank among the cheapest). -/
theorem c4_charge_selection_amended (inp : OptInput) (hours_ahead : Nat)
    (hbuy : inp.buy_prices ≠ [])
    (hpow : 0 < inp.cfg.battery_max_charge_power +
      (if inp.cfg.ev_enabled ∧ inp.ev_connected then inp.cfg.ev_max_charge_power
        else 0)) :
    (getEffectiveChargePower inp).1 + (getEffectiveChargePower inp).2 =
      (if inp.cfg.max_grid_power <
          inp.cfg.battery_max_charge_power +
            (if inp.cfg.ev_enabled ∧ inp.ev_connected then
              inp.cfg.ev_max_charge_power else 0) then
        inp.cfg.max_grid_power
      else
        inp.cfg.battery_max_charge_power +
          (if inp.cfg.ev_enabled ∧ inp.ev_connected then
            inp.cfg.ev_max_charge_power else 0)) ∧
    (0 < (getEffectiveChargePower inp).1 + (getEffectiveChargePower inp).2 →
      econHoursNeeded inp hours_ahead =
        Rat.ceil ((calculate_energy_balance inp hours_ahead).deficit /
          ((getEffectiveChargePower inp).1 + (getEffectiveChargePower inp).2))) ∧
    (optimize inp hours_ahead).charge_hours =
      emergencyHourRecs inp hours_ahead ++
        (pySlice (nightFilteredPrices inp hours_ahead)
          (econHoursNeeded inp hours_ahead)).filter
          (fun p => !(((emergencyHourRecs inp hours_ahead).map
            (fun h => (h.pdate, h.phour))).contains (p.pdate, p.phour))) := by
  refine ⟨?_, ?_, ?_⟩
  · unfold getEffectiveChargePower
    dsimp only
    set ep : ℚ := (if inp.cfg.ev_enabled ∧ inp.ev_connected then
      inp.cfg.ev_max_charge_power else 0) with hep
    by_cases hsc : inp.cfg.max_grid_power <
        inp.cfg.battery_max_charge_power + ep
    · rw [if_pos hsc, if_pos hsc]
      dsimp only
      have hne : inp.cfg.battery_max_charge_power + ep ≠ 0 := ne_of_gt hpow
      field_simp
      ring
    · rw [if_neg hsc, if_neg hsc]
  · intro htot
    unfold econHoursNeeded
    rw [if_pos htot]
  · have hemp : inp.buy_prices.isEmpty = false := by
      simpa using hbuy
    unfold optimize
    rw [hemp]
    dsimp only [Bool.false_eq_true, if_false]
    unfold optimizeChargeHours additionalChargeHours
    rfl

/-- Witness for `c4_charge_selection_amended` at `c4Input`, horizon 24. -/
theorem c4_charge_selection_amended_witness :
    (getEffectiveChargePower c4Input).1 + (getEffectiveChargePower c4Input).2 =
      (if c4Input.cfg.max_grid_power <
          c4Input.cfg.battery_max_charge_power +
            (if c4Input.cfg.ev_enabled ∧ c4Input.ev_connected then
              c4Input.cfg.ev_max_charge_power else 0) then
        c4Input.cfg.max_grid_power
      else
        c4Input.cfg.battery_max_charge_power +
          (if c4Input.cfg.ev_enabled ∧ c4Input.ev_connected then
            c4Input.cfg.ev_max_charge_power else 0)) ∧
    econHoursNeeded c4Input 24 =
      Rat.ceil ((calculate_energy_balance c4Input 24).deficit /
        ((getEffectiveChargePower c4Input).1 + (getEffectiveChargePower c4Input).2)) ∧
    (optimize c4Input 24).charge_hours =
      emergencyHourRecs c4Input 24 ++
        (pySlice (nightFilteredPrices c4Input 24)
          (econHoursNeeded c4Input 24)).filter
          (fun p => !(((emergencyHourRecs c4Input 24).map
            (fun h => (h.pdate, h.phour))).contains (p.pdate, p.phour))) :=
  ⟨(c4_charge_selection_amended c4Input 24 (by with_unfolding_all decide)
      (by with_unfolding_all decide)).1,
    (c4_charge_selection_amended c4Input 24 (by with_unfolding_all decide)
      (by with_unfolding_all decide)).2.1 (by with_unfolding_all decide),
    (c4_charge_selection_amended c4Input 24 (by with_unfolding_all decide)
      (by with_unfolding_all decide)).2.2⟩

theorem pySlice_sublist {α : Type} (l : List α) (n : Int) :
    (pySlice l n).Sublist l := by
  unfold pySlice
  split <;> exact List.take_sublist _ _

/-- Claim C5: when the (night-filtered) effective-price list is nonempty,
the selected discharge hours are exactly the candidates sorted by profit
descending and truncated to `max_discharge_hours =
int(total_discharge_available / discharge_power)` with
`total_discharge_available = min(charge_energy + current_usable,
usable_capacity)`; an hour is a candidate iff its sell price strictly
exceeds `min_buy_effective_price + 2 × cycle_cost`, it is not a charge
hour, its forecast solar is below 0.1 kWh, and it lies within the horizon;
the selected profits are pairwise descending and at most
`max_discharge_hours` hours are selected. -/
theorem c5_discharge_selection (inp : OptInput) (hours_ahead : Nat)
    (hne : nightFilteredPrices inp hours_ahead ≠ []) :
    (optimize inp hours_ahead).discharge_hours =
      pySlice ((dischargeCandidates inp hours_ahead).mergeSort profitDescLe)
        (maxDischargeHours inp hours_ahead) ∧
    (∀ r, r ∈ dischargeCandidates inp hours_ahead ↔
      ∃ s, s ∈ inp.sell_prices ∧
        (s.value > minBuyEffectivePrice inp hours_ahead +
            2 * calculate_cycle_cost inp.cfg ∧
          ((s.pdate, s.phour) ∉ (optimizeChargeHours inp hours_ahead).map
            (fun h => (h.pdate, h.phour))) ∧
          (((optimizePV inp hours_ahead).filter
            (fun p => decide (p.pdate = s.pdate ∧ p.phour = s.phour))).map
            PVRec.kwh).sum < 1 / 10 ∧
          0 ≤ hoursFromNow inp.now s.pdate s.phour ∧
          hoursFromNow inp.now s.pdate s.phour < (hours_ahead : ℚ)) ∧
        r = ⟨s.pdate, s.phour, some s.value, none,
          some (hoursFromNow inp.now s.pdate s.phour),
          some (s.value - minBuyEffectivePrice inp hours_ahead -
            2 * calculate_cycle_cost inp.cfg), none⟩) ∧
    (optimize inp hours_ahead).discharge_hours.Pairwise
      (fun a b => b.profit.getD 0 ≤ a.profit.getD 0) ∧
    (0 ≤ maxDischargeHours inp hours_ahead →
      (optimize inp hours_ahead).discharge_hours.length ≤
        (maxDischargeHours inp hours_ahead).toNat) := by
  have hbuy : inp.buy_prices ≠ [] := by
    intro h
    apply hne
    unfold nightFilteredPrices sortedEffectivePrices
    rw [h]
    simp
  have hemp : inp.buy_prices.isEmpty = false := by simpa using hbuy
  have h1 : (optimize inp hours_ahead).discharge_hours =
      pySlice ((dischargeCandidates inp hours_ahead).mergeSort profitDescLe)
        (maxDischargeHours inp hours_ahead) := by
    unfold optimize
    rw [hemp]
    dsimp only [Bool.false_eq_true, if_false]
    unfold optimizeDischargeHours
    rcases hnf : nightFilteredPrices inp hours_ahead with _ | ⟨e, es⟩
    · exact absurd hnf hne
    · rfl
  have hsorted : ((dischargeCandidates inp hours_ahead).mergeSort
      profitDescLe).Pairwise (fun a b => b.profit.getD 0 ≤ a.profit.getD 0) := by
    have htrans : ∀ (a b c : HourRec),
        profitDescLe a b → profitDescLe b c → profitDescLe a c := by
      intro a b c hab hbc
      unfold profitDescLe at *
      simp only [decide_eq_true_eq] at *
      exact le_trans hbc hab
    have htotal : ∀ (a b : HourRec), profitDescLe a b || profitDescLe b a := by
      intro a b
      unfold profitDescLe
      rcases le_total (b.profit.getD 0) (a.profit.getD 0) with h | h <;>
        simp [h]
    have hs := List.sorted_mergeSort htrans htotal
      (dischargeCandidates inp hours_ahead)
    exact hs.imp (fun h => by
      unfold profitDescLe at h
      simpa using h)
  refine ⟨h1, ?_, ?_, ?_⟩
  · intro r
    unfold dischargeCandidates
    rw [List.mem_filterMap]
    constructor
    · rintro ⟨s, hs, hf⟩
      dsimp only at hf
      split at hf
      · rename_i hc
        refine ⟨s, hs, hc, ?_⟩
        exact (Option.some_inj.mp hf).symm
      · exact absurd hf (by simp)
    · rintro ⟨s, hs, hc, hr⟩
      refine ⟨s, hs, ?_⟩
      dsimp only
      rw [if_pos hc, hr]
  · rw [h1]
    exact hsorted.sublist (pySlice_sublist _ _)
  · intro hge
    rw [h1]
    unfold pySlice
    rw [if_pos hge]
    exact List.length_take_le _ _

/-- Concrete input for the discharge-selection witness: `c4Input` plus two
profitable sell hours at 5:00 and 6:00. -/
def c5Input : OptInput :=
  ⟨⟨10, 20, 5, 0, 0, 1, 3/10, 100, false, 0, 0, 80⟩,
    some 20, none, false, none, 0,
    [⟨0, 1, 1/20⟩, ⟨0, 2, 1/25⟩, ⟨0, 3, 1/2⟩],
    [⟨0, 5, 4/5⟩, ⟨0, 6, 3/5⟩], false, none⟩

set_option maxRecDepth 40000 in
/-- Witness for `c5_discharge_selection` at `c5Input`, horizon 24: the
sell hour 5:00 is a candidate, the selection equals the sorted truncated
candidate list, profits are pairwise descending, and the selection fits
under the discharge-hour cap. -/
theorem c5_discharge_selection_witness :
    (optimize c5Input 24).discharge_hours =
      pySlice ((dischargeCandidates c5Input 24).mergeSort profitDescLe)
        (maxDischargeHours c5Input 24) ∧
    (⟨0, 5, some (4/5), none, some (hoursFromNow c5Input.now 0 5),
      some (4/5 - minBuyEffectivePrice c5Input 24 -
        2 * calculate_cycle_cost c5Input.cfg), none⟩ : HourRec) ∈
      dischargeCandidates c5Input 24 ∧
    (optimize c5Input 24).discharge_hours.Pairwise
      (fun a b => b.profit.getD 0 ≤ a.profit.getD 0) ∧
    (optimize c5Input 24).discharge_hours.length ≤
      (maxDischargeHours c5Input 24).toNat :=
  ⟨(c5_discharge_selection c5Input 24 (by with_unfolding_all decide)).1,
    ((c5_discharge_selection c5Input 24 (by with_unfolding_all decide)).2.1
      _).mpr
      ⟨⟨0, 5, 4/5⟩, by with_unfolding_all decide,
        by with_unfolding_all decide, rfl⟩,
    (c5_discharge_selection c5Input 24 (by with_unfolding_all decide)).2.2.1,
    (c5_discharge_selection c5Input 24 (by with_unfolding_all decide)).2.2.2
      (by with_unfolding_all decide)⟩

end EnergyScheduler
